import Mathlib

/-
Verification of the doc-assist retrieval-augmented-generation service.

Each definition is a shallow embedding of a function of the repository:
  * `chunk_text`, `extract_text_from_bytes`, `clean_text`
      from src/core/text_processor.py
  * `search_similar_chunks` from src/core/vector_store.py
  * `process_and_store_document` from src/core/document_processor.py
  * `ask_question` from src/core/rag.py
  * `query_endpoint` from src/api/routes.py (POST /documents/query)

Python strings are embedded as `List Char`, byte strings as `List Nat`
(each entry < 256), dictionaries with a fixed key set as structures, and a
dictionary key that is present on some code paths and absent on others as
an `Option` field (`none` = key absent, so that reading it raises KeyError).
An exception raised by a callee is an `Except.error`; a `try/except` block
is a `match` on that `Except`.
-/

namespace DocAssist

/-! ## Text chunker (src/core/text_processor.py, `chunk_text`)

The Python `while` loop is embedded with an explicit fuel parameter; `none`
means the fuel ran out.  `chunk_text` hands the loop `text.length + 1` fuel,
which is shown sufficient whenever `overlap < chunk_size`
(`chunk_text_terminates`). -/

/-- Loop body of `chunk_text`: while `start < len(text)`, emit
`text[start : start + chunk_size]`; stop once `start + chunk_size ≥ len(text)`;
otherwise advance `start` to `start + chunk_size - overlap`. -/
def chunkLoop (text : List Char) (chunkSize overlap : Nat) :
    Nat → Nat → Option (List (List Char))
  | 0, _ => none
  | fuel + 1, start =>
    if start < text.length then
      let chunk := (text.drop start).take chunkSize
      if text.length ≤ start + chunkSize then
        some [chunk]
      else
        (chunkLoop text chunkSize overlap fuel (start + chunkSize - overlap)).map
          (fun cs => chunk :: cs)
    else
      some []

/-- Embedding of `chunk_text(text, chunk_size, overlap)`: if
`len(text) <= chunk_size` return `[text]`, else run the sliding-window loop. -/
def chunk_text (text : List Char) (chunk_size overlap : Nat) :
    Option (List (List Char)) :=
  if text.length ≤ chunk_size then some [text]
  else chunkLoop text chunk_size overlap (text.length + 1) 0

/-- Concatenation of a chunk list with the leading `overlap` characters
removed from every chunk except the first. -/
def dropOverlaps (overlap : Nat) : List (List Char) → List Char
  | [] => []
  | c :: rest => c ++ (rest.map (List.drop overlap)).flatten

/-- Relation between a chunk and its successor: the successor's leading
`overlap` characters equal the predecessor's trailing `overlap` characters. -/
def overlapRel (overlap : Nat) (a b : List Char) : Prop :=
  b.take overlap = a.drop (a.length - overlap)

lemma chunkLoop_isSome (text : List Char) (chunkSize overlap : Nat)
    (ho : overlap < chunkSize) :
    ∀ fuel start, text.length - start < fuel →
      (chunkLoop text chunkSize overlap fuel start).isSome := by
  intro fuel
  induction fuel with
  | zero => intro start h; omega
  | succ fuel ih =>
    intro start h
    simp only [chunkLoop]
    by_cases h1 : start < text.length
    · simp only [if_pos h1]
      by_cases h2 : text.length ≤ start + chunkSize
      · simp [h2]
      · simp only [if_neg h2]
        have hrec := ih (start + chunkSize - overlap) (by omega)
        cases hx : chunkLoop text chunkSize overlap fuel (start + chunkSize - overlap) with
        | none => rw [hx] at hrec; simp at hrec
        | some cs => simp [hx]
    · simp [h1]

lemma chunkLoop_spec (text : List Char) (chunkSize overlap : Nat)
    (ho : overlap < chunkSize) :
    ∀ fuel start cs, start < text.length →
      chunkLoop text chunkSize overlap fuel start = some cs →
      (∃ rest, cs = ((text.drop start).take chunkSize) :: rest) ∧
      List.Chain' (overlapRel overlap) cs ∧
      dropOverlaps overlap cs = text.drop start := by
  intro fuel
  induction fuel with
  | zero => intro start cs h hc; simp [chunkLoop] at hc
  | succ fuel ih =>
    intro start cs h hc
    simp only [chunkLoop, if_pos h] at hc
    by_cases h2 : text.length ≤ start + chunkSize
    · rw [if_pos h2] at hc
      have hcs : cs = [(text.drop start).take chunkSize] := by
        cases hc; rfl
      subst hcs
      refine ⟨⟨[], rfl⟩, List.chain'_singleton _, ?_⟩
      show (text.drop start).take chunkSize ++ ([].map (List.drop overlap)).flatten
          = text.drop start
      have hlen : (text.drop start).length ≤ chunkSize := by
        simp only [List.length_drop]; omega
      simp [List.take_of_length_le hlen]
    · rw [if_neg h2] at hc
      push_neg at h2
      cases hx : chunkLoop text chunkSize overlap fuel (start + chunkSize - overlap) with
      | none => rw [hx] at hc; simp at hc
      | some cs2 =>
        rw [hx] at hc
        simp only [Option.map_some'] at hc
        have hcs : cs = (text.drop start).take chunkSize :: cs2 := by
          cases hc; rfl
        subst hcs
        have hstart2 : start + chunkSize - overlap < text.length := by omega
        obtain ⟨⟨rest2, hcs2⟩, hchain2, hrec2⟩ := ih (start + chunkSize - overlap) cs2 hstart2 hx
        have hchunklen : ((text.drop start).take chunkSize).length = chunkSize := by
          simp only [List.length_take, List.length_drop]; omega
        have hrel : overlapRel overlap ((text.drop start).take chunkSize)
            ((text.drop (start + chunkSize - overlap)).take chunkSize) := by
          show ((text.drop (start + chunkSize - overlap)).take chunkSize).take overlap
              = ((text.drop start).take chunkSize).drop
                  (((text.drop start).take chunkSize).length - overlap)
          rw [hchunklen, List.take_take, List.drop_take, List.drop_drop]
          have e1 : min overlap chunkSize = overlap := by omega
          have e2 : start + (chunkSize - overlap) = start + chunkSize - overlap := by omega
          have e3 : chunkSize - (chunkSize - overlap) = overlap := by omega
          rw [e1, e2, e3]
        constructor
        · exact ⟨cs2, rfl⟩
        constructor
        · rw [hcs2]
          rw [hcs2] at hchain2
          exact List.chain'_cons.mpr ⟨hrel, hchain2⟩
        · show (text.drop start).take chunkSize ++ (cs2.map (List.drop overlap)).flatten
              = text.drop start
          have hhead2len : overlap ≤ ((text.drop (start + chunkSize - overlap)).take chunkSize).length := by
            simp only [List.length_take, List.length_drop]; omega
          have hflat : (cs2.map (List.drop overlap)).flatten
              = (text.drop (start + chunkSize - overlap)).drop overlap := by
            rw [hcs2]
            rw [hcs2] at hrec2
            simp only [dropOverlaps] at hrec2
            simp only [List.map_cons, List.flatten_cons]
            calc ((text.drop (start + chunkSize - overlap)).take chunkSize).drop overlap
                  ++ (rest2.map (List.drop overlap)).flatten
                = (((text.drop (start + chunkSize - overlap)).take chunkSize)
                    ++ (rest2.map (List.drop overlap)).flatten).drop overlap := by
                  rw [List.drop_append_of_le_length hhead2len]
              _ = (text.drop (start + chunkSize - overlap)).drop overlap := by rw [hrec2]
          rw [hflat, List.drop_drop]
          have e4 : start + chunkSize - overlap + overlap = start + chunkSize := by omega
          rw [e4]
          have e5 : (text.drop start).drop chunkSize = text.drop (start + chunkSize) := by
            rw [List.drop_drop]
          rw [← e5, List.take_append_drop]

lemma chunk_text_isSome (text : List Char) (chunk_size overlap : Nat)
    (ho : overlap < chunk_size) :
    (chunk_text text chunk_size overlap).isSome := by
  unfold chunk_text
  split
  · rfl
  · exact chunkLoop_isSome text chunk_size overlap ho (text.length + 1) 0 (by omega)

/-- C4: for every text and positive window size and overlap with
`overlap < chunk_size`, `chunk_text` terminates: the fuelled embedding of the
`while` loop returns a result (each iteration advances `start` by
`chunk_size - overlap > 0`). -/
theorem chunk_text_terminates (text : List Char) (chunk_size overlap : Nat)
    (hs : 0 < chunk_size) (hov : 0 < overlap) (ho : overlap < chunk_size) :
    (chunk_text text chunk_size overlap).isSome :=
  chunk_text_isSome text chunk_size overlap ho

/-- Witness for `chunk_text_terminates` at text "abcde", window 2, overlap 1. -/
theorem chunk_text_terminates_witness :
    (chunk_text ['a', 'b', 'c', 'd', 'e'] 2 1).isSome :=
  chunk_text_terminates ['a', 'b', 'c', 'd', 'e'] 2 1 (by decide) (by decide) (by decide)

/-- C3: for every text and positive window size and overlap with
`overlap < chunk_size`, concatenating the chunks returned by `chunk_text`
after removing the leading `overlap` characters from every chunk except the
first reconstructs the input text exactly. -/
theorem chunk_text_reconstructs (text : List Char) (chunk_size overlap : Nat)
    (hs : 0 < chunk_size) (hov : 0 < overlap) (ho : overlap < chunk_size) :
    ∃ cs, chunk_text text chunk_size overlap = some cs ∧
      dropOverlaps overlap cs = text := by
  unfold chunk_text
  split
  · exact ⟨[text], rfl, by simp [dropOverlaps]⟩
  · rename_i hlong
    have hsome := chunkLoop_isSome text chunk_size overlap ho (text.length + 1) 0 (by omega)
    obtain ⟨cs, hcs⟩ := Option.isSome_iff_exists.mp hsome
    refine ⟨cs, hcs, ?_⟩
    have hspec := chunkLoop_spec text chunk_size overlap ho (text.length + 1) 0 cs
      (by omega) hcs
    simpa using hspec.2.2

/-- Witness for `chunk_text_reconstructs` at text "abcde", window 2, overlap 1. -/
theorem chunk_text_reconstructs_witness :
    ∃ cs, chunk_text ['a', 'b', 'c', 'd', 'e'] 2 1 = some cs ∧
      dropOverlaps 1 cs = ['a', 'b', 'c', 'd', 'e'] :=
  chunk_text_reconstructs ['a', 'b', 'c', 'd', 'e'] 2 1 (by decide) (by decide) (by decide)

/-- C2: for every text strictly longer than the window size and every positive
window size and overlap with `overlap < chunk_size`, in the list returned by
`chunk_text` every chunk after the first has its leading `overlap` characters
equal to the trailing `overlap` characters of the previous chunk. -/
theorem chunk_text_overlap_property (text : List Char) (chunk_size overlap : Nat)
    (hs : 0 < chunk_size) (hov : 0 < overlap) (ho : overlap < chunk_size)
    (hlen : chunk_size < text.length) :
    ∃ cs, chunk_text text chunk_size overlap = some cs ∧
      ∀ i (h1 : i < cs.length) (h2 : i + 1 < cs.length),
        (cs.get ⟨i + 1, h2⟩).take overlap =
        (cs.get ⟨i, h1⟩).drop ((cs.get ⟨i, h1⟩).length - overlap) := by
  have hsome := chunkLoop_isSome text chunk_size overlap ho (text.length + 1) 0 (by omega)
  obtain ⟨cs, hcs⟩ := Option.isSome_iff_exists.mp hsome
  have hct : chunk_text text chunk_size overlap = some cs := by
    unfold chunk_text
    rw [if_neg (by omega)]
    exact hcs
  refine ⟨cs, hct, ?_⟩
  have hspec := chunkLoop_spec text chunk_size overlap ho (text.length + 1) 0 cs
    (by omega) hcs
  intro i h1 h2
  exact List.chain'_iff_get.mp hspec.2.1 i (by omega)

/-- Witness for `chunk_text_overlap_property` at text "abcdef", window 3,
overlap 1: chunks are "abc", "cde", "ef". -/
theorem chunk_text_overlap_property_witness :
    ∃ cs, chunk_text ['a', 'b', 'c', 'd', 'e', 'f'] 3 1 = some cs ∧
      ∀ i (h1 : i < cs.length) (h2 : i + 1 < cs.length),
        (cs.get ⟨i + 1, h2⟩).take 1 =
        (cs.get ⟨i, h1⟩).drop ((cs.get ⟨i, h1⟩).length - 1) :=
  chunk_text_overlap_property ['a', 'b', 'c', 'd', 'e', 'f'] 3 1
    (by decide) (by decide) (by decide) (by decide)

/-! ## Text normalization (src/core/text_processor.py, `clean_text`)

`clean_text` splits on newlines, collapses whitespace runs inside each line
with `' '.join(line.split())`, drops lines that become empty, and rejoins
with newlines.  `pySplitOn` embeds Python's `str.split(sep)`,
`pySplitWhitespace` embeds the no-argument `str.split()` (split on runs of
whitespace, no empty words), and `joinWith` embeds `sep.join(...)`. -/

/-- Whitespace characters of Python's `str.split()` (the `str.isspace()` set). -/
def isPySpace (c : Char) : Bool :=
  (0x9 ≤ c.val && c.val ≤ 0xd) || c.val = 0x20 ||
  (0x1c ≤ c.val && c.val ≤ 0x1f) || c.val = 0x85 || c.val = 0xa0 ||
  c.val = 0x1680 || (0x2000 ≤ c.val && c.val ≤ 0x200a) ||
  c.val = 0x2028 || c.val = 0x2029 || c.val = 0x202f || c.val = 0x205f ||
  c.val = 0x3000

/-- Accumulator loop of `str.split()`: `cur` is the word being read. -/
def wordsAux : List Char → List Char → List (List Char)
  | [], cur => if cur = [] then [] else [cur]
  | c :: cs, cur =>
    if isPySpace c then
      if cur = [] then wordsAux cs [] else cur :: wordsAux cs []
    else
      wordsAux cs (cur ++ [c])

/-- Embedding of Python's `line.split()`: maximal whitespace-free words. -/
def pySplitWhitespace (l : List Char) : List (List Char) :=
  wordsAux l []

/-- Embedding of Python's `sep.join(parts)`. -/
def joinWith (sep : List Char) : List (List Char) → List Char
  | [] => []
  | [l] => l
  | l :: ls => l ++ sep ++ joinWith sep ls

/-- Embedding of Python's `text.split(sep)` for a one-character separator. -/
def pySplitOn (sep : Char) : List Char → List (List Char)
  | [] => [[]]
  | c :: cs =>
    if c = sep then [] :: pySplitOn sep cs
    else
      match pySplitOn sep cs with
      | [] => [[c]]
      | l :: ls => (c :: l) :: ls

/-- Per-line cleaning step of `clean_text`: `' '.join(line.split())`. -/
def cleanLine (line : List Char) : List Char :=
  joinWith [' '] (pySplitWhitespace line)

/-- Embedding of `clean_text(text)`: split on newlines, clean each line,
keep only non-empty cleaned lines, rejoin with newlines. -/
def clean_text (text : List Char) : List Char :=
  joinWith ['\n']
    (((pySplitOn '\n' text).map cleanLine).filter (fun l => !l.isEmpty))

lemma wordsAux_words (l : List Char) :
    ∀ cur, (∀ c ∈ cur, ¬ isPySpace c) →
      ∀ w ∈ wordsAux l cur, w ≠ [] ∧ ∀ c ∈ w, ¬ isPySpace c := by
  induction l with
  | nil =>
    intro cur hcur w hw
    simp only [wordsAux] at hw
    by_cases h0 : cur = []
    · rw [if_pos h0] at hw; simp at hw
    · rw [if_neg h0] at hw
      exact (List.mem_singleton.mp hw) ▸ ⟨h0, hcur⟩
  | cons c cs ih =>
    intro cur hcur w hw
    simp only [wordsAux] at hw
    by_cases hc : isPySpace c
    · rw [if_pos hc] at hw
      by_cases h0 : cur = []
      · rw [if_pos h0] at hw
        exact ih [] (by simp) w hw
      · rw [if_neg h0] at hw
        rcases List.mem_cons.mp hw with hw | hw
        · exact hw ▸ ⟨h0, hcur⟩
        · exact ih [] (by simp) w hw
    · rw [if_neg hc] at hw
      refine ih (cur ++ [c]) ?_ w hw
      intro x hx
      rcases List.mem_append.mp hx with hx | hx
      · exact hcur x hx
      · simp at hx; exact hx ▸ hc

lemma wordsAux_append (w : List Char) :
    ∀ l cur, (∀ c ∈ w, ¬ isPySpace c) →
      wordsAux (w ++ l) cur = wordsAux l (cur ++ w) := by
  induction w with
  | nil => intro l cur _; simp
  | cons c w ih =>
    intro l cur h
    have hc : ¬ isPySpace c := h c (by simp)
    simp only [List.cons_append, wordsAux, if_neg hc]
    show wordsAux (w ++ l) (cur ++ [c]) = wordsAux l (cur ++ c :: w)
    rw [ih l (cur ++ [c]) (fun x hx => h x (by simp [hx]))]
    rw [List.append_cons cur c w]

lemma pySplitWhitespace_joinWith (ws : List (List Char)) (hne : ws ≠ [])
    (hw : ∀ w ∈ ws, w ≠ [] ∧ ∀ c ∈ w, ¬ isPySpace c) :
    pySplitWhitespace (joinWith [' '] ws) = ws := by
  induction ws with
  | nil => exact absurd rfl hne
  | cons w ws ih =>
    cases ws with
    | nil =>
      show wordsAux (joinWith [' '] [w]) [] = [w]
      have hw1 := hw w (by simp)
      calc wordsAux (joinWith [' '] [w]) [] = wordsAux (w ++ []) [] := by
            simp [joinWith]
        _ = wordsAux [] ([] ++ w) := wordsAux_append w [] [] hw1.2
        _ = [w] := by simp [wordsAux, hw1.1]
    | cons w2 ws2 =>
      have hw1 := hw w (by simp)
      show wordsAux (joinWith [' '] (w :: w2 :: ws2)) [] = w :: w2 :: ws2
      have hjoin : joinWith [' '] (w :: w2 :: ws2)
          = w ++ (' ' :: joinWith [' '] (w2 :: ws2)) := by
        simp [joinWith]
      rw [hjoin, wordsAux_append w (' ' :: joinWith [' '] (w2 :: ws2)) [] hw1.2]
      simp only [List.nil_append, wordsAux]
      rw [if_pos (by decide : isPySpace ' ' = true), if_neg hw1.1]
      have := ih (by simp) (fun x hx => hw x (List.mem_cons_of_mem w hx))
      rw [show wordsAux (joinWith [' '] (w2 :: ws2)) [] = w2 :: ws2 from this]

lemma mem_joinWith (sep : List Char) (ws : List (List Char)) (c : Char) :
    c ∈ joinWith sep ws → c ∈ sep ∨ ∃ w ∈ ws, c ∈ w := by
  induction ws with
  | nil => intro h; simp [joinWith] at h
  | cons w ws ih =>
    cases ws with
    | nil =>
      intro h
      simp only [joinWith] at h
      exact Or.inr ⟨w, by simp, h⟩
    | cons w2 ws2 =>
      intro h
      simp only [joinWith] at h
      rcases List.mem_append.mp h with h | h
      · rcases List.mem_append.mp h with h | h
        · exact Or.inr ⟨w, by simp, h⟩
        · exact Or.inl h
      · rcases ih h with h | ⟨w3, hw3, hc3⟩
        · exact Or.inl h
        · exact Or.inr ⟨w3, List.mem_cons_of_mem w hw3, hc3⟩

lemma cleanLine_no_newline (line : List Char) :
    ∀ c ∈ cleanLine line, c ≠ '\n' := by
  intro c hc
  rcases mem_joinWith [' '] (pySplitWhitespace line) c hc with h | ⟨w, hw, hcw⟩
  · simp at h
    exact h ▸ (by decide)
  · have := (wordsAux_words line [] (by simp) w hw).2 c hcw
    intro hlf
    exact this (hlf ▸ (by decide : isPySpace '\n' = true))

lemma cleanLine_idem (x : List Char) : cleanLine (cleanLine x) = cleanLine x := by
  unfold cleanLine
  cases hws : pySplitWhitespace x with
  | nil => simp [joinWith, pySplitWhitespace, wordsAux]
  | cons w ws =>
    have hwords := wordsAux_words x [] (by simp)
    rw [pySplitWhitespace_joinWith (w :: ws) (by simp) (hws ▸ hwords)]

lemma pySplitOn_no_sep (sep : Char) (l : List Char) (h : ∀ c ∈ l, c ≠ sep) :
    pySplitOn sep l = [l] := by
  induction l with
  | nil => rfl
  | cons c cs ih =>
    simp only [pySplitOn]
    rw [if_neg (h c (by simp))]
    rw [ih (fun x hx => h x (List.mem_cons_of_mem c hx))]

lemma pySplitOn_append_sep (sep : Char) (rest : List Char) :
    ∀ l, (∀ c ∈ l, c ≠ sep) →
      pySplitOn sep (l ++ sep :: rest) = l :: pySplitOn sep rest := by
  intro l
  induction l with
  | nil =>
    intro _
    simp [pySplitOn]
  | cons c cs ih =>
    intro h
    have hcs := ih (fun x hx => h x (List.mem_cons_of_mem c hx))
    show pySplitOn sep (c :: (cs ++ sep :: rest)) = (c :: cs) :: pySplitOn sep rest
    simp only [pySplitOn]
    rw [if_neg (h c (by simp))]
    show (match pySplitOn sep (cs ++ sep :: rest) with
      | [] => [[c]]
      | l :: ls => (c :: l) :: ls) = (c :: cs) :: pySplitOn sep rest
    rw [hcs]

lemma pySplitOn_joinWith (sep : Char) (ls : List (List Char)) (hne : ls ≠ [])
    (h : ∀ l ∈ ls, ∀ c ∈ l, c ≠ sep) :
    pySplitOn sep (joinWith [sep] ls) = ls := by
  induction ls with
  | nil => exact absurd rfl hne
  | cons l ls ih =>
    cases ls with
    | nil =>
      show pySplitOn sep (joinWith [sep] [l]) = [l]
      simp only [joinWith]
      exact pySplitOn_no_sep sep l (h l (by simp))
    | cons l2 ls2 =>
      have hjoin : joinWith [sep] (l :: l2 :: ls2)
          = l ++ (sep :: joinWith [sep] (l2 :: ls2)) := by
        simp [joinWith]
      rw [hjoin, pySplitOn_append_sep sep (joinWith [sep] (l2 :: ls2)) l (h l (by simp))]
      rw [ih (by simp) (fun x hx => h x (List.mem_cons_of_mem l hx))]

/-- C7: normalization is idempotent: `clean_text (clean_text text) = clean_text text`
for every string. -/
theorem clean_text_idempotent (text : List Char) :
    clean_text (clean_text text) = clean_text text := by
  unfold clean_text
  cases hls : ((pySplitOn '\n' text).map cleanLine).filter (fun l => !l.isEmpty) with
  | nil => rfl
  | cons l0 ls0 =>
    have hmem : ∀ l ∈ l0 :: ls0, (∃ x, cleanLine x = l) ∧ l ≠ [] := by
      intro l hl
      rw [← hls] at hl
      have := List.mem_filter.mp hl
      obtain ⟨x, _, hx⟩ := List.mem_map.mp this.1
      refine ⟨⟨x, hx⟩, ?_⟩
      have hne := this.2
      simp only [Bool.not_eq_eq_eq_not, Bool.not_true] at hne
      intro hcon
      rw [hcon] at hne
      simp at hne
    have hnolf : ∀ l ∈ l0 :: ls0, ∀ c ∈ l, c ≠ '\n' := by
      intro l hl c hc
      obtain ⟨⟨x, hx⟩, _⟩ := hmem l hl
      exact cleanLine_no_newline x c (hx ▸ hc)
    rw [pySplitOn_joinWith '\n' (l0 :: ls0) (by simp) hnolf]
    have hmapid : (l0 :: ls0).map cleanLine = l0 :: ls0 := by
      have : ∀ l ∈ l0 :: ls0, cleanLine l = l := by
        intro l hl
        obtain ⟨⟨x, hx⟩, _⟩ := hmem l hl
        rw [← hx, cleanLine_idem]
      conv_rhs => rw [← List.map_id (l0 :: ls0)]
      exact List.map_congr_left this
    rw [hmapid]
    have hfilter : (l0 :: ls0).filter (fun l => !l.isEmpty) = l0 :: ls0 := by
      refine List.filter_eq_self.mpr ?_
      intro a ha
      have := (hmem a ha).2
      cases a with
      | nil => exact absurd rfl this
      | cons c cs => rfl
    rw [hfilter]

/-! ## Text extraction (src/core/text_processor.py, `extract_text_from_bytes`)

Byte strings are `List Nat` with every entry below 256.  Decoded text is the
list of Unicode code points.  `utf8Decode` embeds Python's strict
`bytes.decode("utf-8")` (`none` = `UnicodeDecodeError`); `latin1Decode`
embeds `bytes.decode("latin-1")`, which maps byte `b` to code point `b` and
only fails on a value that is not a byte; `utf8DecodeIgnore` embeds
`bytes.decode("utf-8", errors="ignore")`, which is total.  The PDF and DOCX
parsing libraries are external collaborators, supplied as parameters:
`none` models the library being absent (`ImportError`), and a parser's
`Except.error` models the parsing exception. -/

/-- Continuation byte test for UTF-8 (`0x80 ≤ b ≤ 0xbf`). -/
def isCont (b : Nat) : Bool :=
  0x80 ≤ b && b ≤ 0xbf

/-- Strict UTF-8 decoding of a byte list into code points; `none` models
`UnicodeDecodeError` (rejects overlong forms, surrogates and values above
`0x10ffff`, as Python does). -/
def utf8Decode : List Nat → Option (List Nat)
  | [] => some []
  | b :: bs =>
    if b ≤ 0x7f then
      (utf8Decode bs).map (fun s => b :: s)
    else if 0xc2 ≤ b && b ≤ 0xdf then
      match bs with
      | b2 :: rest =>
        if isCont b2 then
          (utf8Decode rest).map (fun s => ((b - 0xc0) * 0x40 + (b2 - 0x80)) :: s)
        else none
      | [] => none
    else if 0xe0 ≤ b && b ≤ 0xef then
      match bs with
      | b2 :: b3 :: rest =>
        if (if b = 0xe0 then decide (0xa0 ≤ b2 && b2 ≤ 0xbf)
            else if b = 0xed then decide (0x80 ≤ b2 && b2 ≤ 0x9f)
            else isCont b2) && isCont b3 then
          (utf8Decode rest).map
            (fun s => ((b - 0xe0) * 0x1000 + (b2 - 0x80) * 0x40 + (b3 - 0x80)) :: s)
        else none
      | _ => none
    else if 0xf0 ≤ b && b ≤ 0xf4 then
      match bs with
      | b2 :: b3 :: b4 :: rest =>
        if (if b = 0xf0 then decide (0x90 ≤ b2 && b2 ≤ 0xbf)
            else if b = 0xf4 then decide (0x80 ≤ b2 && b2 ≤ 0x8f)
            else isCont b2) && isCont b3 && isCont b4 then
          (utf8Decode rest).map
            (fun s => ((b - 0xf0) * 0x40000 + (b2 - 0x80) * 0x1000
              + (b3 - 0x80) * 0x40 + (b4 - 0x80)) :: s)
        else none
      | _ => none
    else none

/-- Latin-1 decoding: byte `b` becomes code point `b`; fails only on a value
that is not a byte (which a Python `bytes` object cannot contain). -/
def latin1Decode : List Nat → Option (List Nat)
  | [] => some []
  | b :: bs =>
    if b < 0x100 then (latin1Decode bs).map (fun s => b :: s)
    else none

/-- UTF-8 decoding with `errors="ignore"`: invalid bytes are skipped, the
function is total. -/
def utf8DecodeIgnore : List Nat → List Nat
  | [] => []
  | b :: bs =>
    if b ≤ 0x7f then
      b :: utf8DecodeIgnore bs
    else if 0xc2 ≤ b && b ≤ 0xdf then
      match bs with
      | b2 :: rest =>
        if isCont b2 then ((b - 0xc0) * 0x40 + (b2 - 0x80)) :: utf8DecodeIgnore rest
        else utf8DecodeIgnore (b2 :: rest)
      | [] => []
    else if 0xe0 ≤ b && b ≤ 0xef then
      match bs with
      | b2 :: b3 :: rest =>
        if (if b = 0xe0 then decide (0xa0 ≤ b2 && b2 ≤ 0xbf)
            else if b = 0xed then decide (0x80 ≤ b2 && b2 ≤ 0x9f)
            else isCont b2) && isCont b3 then
          ((b - 0xe0) * 0x1000 + (b2 - 0x80) * 0x40 + (b3 - 0x80)) :: utf8DecodeIgnore rest
        else utf8DecodeIgnore (b2 :: b3 :: rest)
      | _ => []
    else if 0xf0 ≤ b && b ≤ 0xf4 then
      match bs with
      | b2 :: b3 :: b4 :: rest =>
        if (if b = 0xf0 then decide (0x90 ≤ b2 && b2 ≤ 0xbf)
            else if b = 0xf4 then decide (0x80 ≤ b2 && b2 ≤ 0x8f)
            else isCont b2) && isCont b3 && isCont b4 then
          ((b - 0xf0) * 0x40000 + (b2 - 0x80) * 0x1000 + (b3 - 0x80) * 0x40
            + (b4 - 0x80)) :: utf8DecodeIgnore rest
        else utf8DecodeIgnore (b2 :: b3 :: b4 :: rest)
      | _ => []
    else utf8DecodeIgnore bs

/-- External parsing libraries used by `extract_text_from_bytes`: `none`
models the library failing to import (`PdfReader = None` / `Document = None`),
a parser's `Except.error` models the exception its `try` block catches. -/
structure ExternalLibs where
  pdfReader : Option (List Nat → Except String (List Nat))
  docxReader : Option (List Nat → Except String (List Nat))

/-- ASCII lowering of one character (`str.lower()` restricted to the ASCII
range, which covers every extension the service compares against). -/
def pyToLower (c : Char) : Char :=
  if 65 ≤ c.val && c.val ≤ 90 then Char.ofNat (c.toNat + 32) else c

/-- Embedding of `str.lower()` on a character list. -/
def lowerChars (l : List Char) : List Char :=
  l.map pyToLower

/-- Embedding of `extract_text_from_bytes(content, file_extension)`: for
`.txt`, decode UTF-8, fall back to Latin-1, then to UTF-8 ignoring errors;
for `.pdf` / `.docx`, delegate to the external parser, converting its faults;
otherwise fail with an unsupported-type error. -/
def extract_text_from_bytes (libs : ExternalLibs) (content : List Nat)
    (file_extension : List Char) : Except String (List Nat) :=
  let ext := lowerChars file_extension
  if ext = ['.', 't', 'x', 't'] then
    match utf8Decode content with
    | some s => .ok s
    | none =>
      match latin1Decode content with
      | some s => .ok s
      | none => .ok (utf8DecodeIgnore content)
  else if ext = ['.', 'p', 'd', 'f'] then
    match libs.pdfReader with
    | none => .error "pypdf is required for PDF support. Install with: uv add pypdf"
    | some parse =>
      match parse content with
      | .ok t => .ok t
      | .error e => .error ("Failed to extract text from PDF: " ++ e)
  else if ext = ['.', 'd', 'o', 'c', 'x'] then
    match libs.docxReader with
    | none => .error "python-docx is required for DOCX support. Install it using uv add python-docx"
    | some parse =>
      match parse content with
      | .ok t => .ok t
      | .error e => .error ("FAiled to extract text from DOCX: " ++ e)
  else
    .error ("Unsupported file type: " ++ String.mk ext)

lemma latin1Decode_some (content : List Nat) (h : ∀ b ∈ content, b < 0x100) :
    latin1Decode content = some content := by
  induction content with
  | nil => rfl
  | cons b bs ih =>
    simp only [latin1Decode]
    rw [if_pos (h b (by simp))]
    rw [ih (fun x hx => h x (List.mem_cons_of_mem b hx))]
    rfl

/-- C6: for every byte sequence, extraction with the `.txt` extension returns
a string and never fails: UTF-8 decoding is attempted, Latin-1 is the
fallback (total on bytes), UTF-8-ignoring-errors the further fallback, so the
error branch is unreachable. -/
theorem extract_txt_never_fails (libs : ExternalLibs) (content : List Nat)
    (hbytes : ∀ b ∈ content, b < 0x100) :
    ∃ s, extract_text_from_bytes libs content ['.', 't', 'x', 't'] = .ok s := by
  unfold extract_text_from_bytes
  have hext : lowerChars ['.', 't', 'x', 't'] = ['.', 't', 'x', 't'] := by decide
  rw [hext, if_pos rfl]
  cases hu : utf8Decode content with
  | some s => exact ⟨s, rfl⟩
  | none =>
    rw [latin1Decode_some content hbytes]
    exact ⟨content, rfl⟩

/-- Witness for `extract_txt_never_fails` at the single invalid-UTF-8 byte
`0xff` (decoded by the Latin-1 fallback). -/
theorem extract_txt_never_fails_witness :
    ∃ s, extract_text_from_bytes ⟨none, none⟩ [0xff] ['.', 't', 'x', 't'] = .ok s :=
  extract_txt_never_fails ⟨none, none⟩ [0xff] (by decide)

/-! ## Vector index adapter (src/core/vector_store.py)

The embedded vector database is an external collaborator: a `Collection`
is abstracted as its query function.  Chroma returns parallel lists per
query text; since the adapter always sends exactly one query text, the
single-query batch (`results["documents"][0]`, `results["metadatas"][0]`,
`results["distances"][0]`, `results["ids"][0]`) is modelled directly.  The
distance type `δ` is kept abstract because distances are floating-point
values the adapter only passes through. -/

/-- Metadata the adapter attaches to each stored chunk. -/
structure ChunkMetadata where
  document_name : String
  chunk_index : Nat
  chunk_length : Nat
deriving DecidableEq

/-- Single-query result batch of the underlying vector database. -/
structure ChromaBatch (δ : Type) where
  documents : List String
  metadatas : List ChunkMetadata
  distances : List δ
  ids : List String

/-- External collection handle, abstracted as its query behaviour. -/
structure Collection (δ : Type) where
  query : String → Nat → ChromaBatch δ

/-- Reshaped dictionary returned by `search_similar_chunks`. -/
structure SearchRaw (δ : Type) where
  chunks : List String
  metadata : List ChunkMetadata
  distances : List δ
  ids : List String

/-- Embedding of `VectorStore.search_similar_chunks(query, n_results)`:
`self.collection` is `none` when no collection was initialized, and that
case raises `ValueError` (the `Except.error`); otherwise the collection is
queried and the parallel lists are repackaged. -/
def search_similar_chunks (δ : Type) (collection : Option (Collection δ))
    (query : String) (n_results : Nat) : Except String (SearchRaw δ) :=
  match collection with
  | none => .error "No collection initialized. Call get_or_create_collection() first."
  | some c =>
    let results := c.query query n_results
    .ok ⟨results.documents, results.metadatas, results.distances, results.ids⟩

/-- C9: querying the adapter while no collection has been initialized raises
the explicit uninitialized-collection error, which is distinct from any
successful search result (in particular from a successful empty search). -/
theorem search_uninitialized_error (δ : Type) (query : String) (n_results : Nat) :
    search_similar_chunks δ none query n_results
      = .error "No collection initialized. Call get_or_create_collection() first."
    ∧ ∀ r, search_similar_chunks δ none query n_results ≠ .ok r := by
  refine ⟨rfl, ?_⟩
  intro r h
  exact Except.noConfusion h

/-! ## RAG orchestrator (src/core/rag.py, `RAGEngine.ask_question`)

`search_documents` and `answer_question_with_context` are the two
collaborators; an `Except.error` models an exception raised by the
collaborator, caught by the orchestrator's `try/except`.  A successful
`search_documents` call returns a tagged dictionary: `SearchOutcome.success`
(status `"success"`, with `num_results = len(results)` by construction) or
`SearchOutcome.failure` (status `"error"`, with its `error` message).  The
`model_used` key exists only on the dictionary built on the full success
path, hence the `Option` field on `RAGResult`. -/

/-- Formatted search hit produced by `DocumentProcessor.search_documents`.
The `similarity_score` field (a float, `1 - distance`) is omitted: it is
floating-point data that no verified claim observes. -/
structure Hit where
  chunk_text : String
  document_name : String
  chunk_index : Nat
  chunk_id : String
deriving DecidableEq

/-- Tagged result dictionary of `DocumentProcessor.search_documents`. -/
inductive SearchOutcome where
  | success (results : List Hit)
  | failure (error : String)
deriving DecidableEq

/-- Dictionary returned by `OllamaClient.answer_question_with_context`
(always contains the `model_used` key). -/
structure LLMAnswer where
  query : String
  answer : String
  sources : List String
  model_used : String
  success : Bool
  error : Option String
  num_sources : Nat
deriving DecidableEq

/-- Dictionary returned by `RAGEngine.ask_question`; `model_used = none`
models the key being absent (every failure and zero-hit path). -/
structure RAGResult where
  question : String
  answer : String
  sources : List String
  success : Bool
  error : Option String
  chunks_found : Nat
  model_used : Option String
deriving DecidableEq

/-- Embedding of Python's `x or d` for an optional integer: `None` and `0`
are falsy, so both select the default. -/
def pyOrNat (x : Option Nat) (d : Nat) : Nat :=
  match x with
  | none => d
  | some k => if k = 0 then d else k

/-- Embedding of `RAGEngine.ask_question(question, n_chunks)`.  The
retrieval count is `n_chunks or self.max_chunks`; a raised exception
(`Except.error`) from either collaborator is converted by the surrounding
`try/except` into the generic failure dictionary. -/
def ask_question (question : String) (max_chunks : Nat)
    (search_documents : String → Nat → Except String SearchOutcome)
    (answer_with_context : String → List Hit → Except String LLMAnswer)
    (n_chunks : Option Nat) : RAGResult :=
  let n := pyOrNat n_chunks max_chunks
  match search_documents question n with
  | .error e =>
    ⟨question, "An error occurred while processing your question.",
      [], false, some e, 0, none⟩
  | .ok (.failure e) =>
    ⟨question, "Failed to search documents.", [], false, some e, 0, none⟩
  | .ok (.success results) =>
    if results.length = 0 then
      ⟨question,
        "I couldn\x27t find any relevant information in the uploaded documents to answer you question.",
        [], true, none, 0, none⟩
    else
      match answer_with_context question results with
      | .error e =>
        ⟨question, "An error occurred while processing your question.",
          [], false, some e, 0, none⟩
      | .ok r =>
        ⟨question, r.answer, r.sources, r.success, r.error, results.length,
          some r.model_used⟩

/-- C5: if the search succeeds with zero hits, `ask_question` returns a
successful answer (`success = true`, `chunks_found = 0`, `error = None`)
whose text states that no relevant information was found. -/
theorem ask_question_zero_hits (question : String) (max_chunks : Nat)
    (search_documents : String → Nat → Except String SearchOutcome)
    (answer_with_context : String → List Hit → Except String LLMAnswer)
    (n_chunks : Option Nat)
    (h : search_documents question (pyOrNat n_chunks max_chunks)
      = .ok (.success [])) :
    ask_question question max_chunks search_documents answer_with_context n_chunks
      = ⟨question,
          "I couldn\x27t find any relevant information in the uploaded documents to answer you question.",
          [], true, none, 0, none⟩ := by
  simp [ask_question, h]

/-- Witness for `ask_question_zero_hits` with a search collaborator that
succeeds with zero hits. -/
theorem ask_question_zero_hits_witness :
    ask_question "q" 5 (fun _ _ => .ok (.success []))
      (fun _ _ => .error "unused") none
      = ⟨"q",
          "I couldn\x27t find any relevant information in the uploaded documents to answer you question.",
          [], true, none, 0, none⟩ :=
  ask_question_zero_hits "q" 5 (fun _ _ => .ok (.success []))
    (fun _ _ => .error "unused") none rfl

/-- C10: calling `ask_question` with `n_chunks = 0` behaves identically to
calling it with `n_chunks = None`: the default is applied with a truthiness
test, so the configured `max_chunks` is used for retrieval, not zero. -/
theorem ask_question_zero_is_default (question : String) (max_chunks : Nat)
    (search_documents : String → Nat → Except String SearchOutcome)
    (answer_with_context : String → List Hit → Except String LLMAnswer) :
    ask_question question max_chunks search_documents answer_with_context (some 0)
      = ask_question question max_chunks search_documents answer_with_context none
    ∧ pyOrNat (some 0) max_chunks = max_chunks :=
  ⟨rfl, rfl⟩

/-! ## HTTP query endpoint (src/api/routes.py, `POST /documents/query`)

The handler builds the `QuestionResponse` with `result["model_used"]`.  On
every failure path of `ask_question` that key is absent, so the lookup
raises `KeyError("model_used")`; the handler's own `except Exception`
converts it into `HTTPException(500, "Question processing failed: " +
str(e))`, where `str(KeyError("model_used"))` is `"'model_used'"`. -/

/-- Request body of `POST /documents/query`. -/
structure QuestionRequest where
  question : String
  max_chunks : Option Nat
deriving DecidableEq

/-- Response model of `POST /documents/query` (the 200 body). -/
structure QuestionResponse where
  question : String
  answer : String
  sources : List String
  success : Bool
  chunks_found : Nat
  model_used : String
  error : Option String
deriving DecidableEq

/-- Outcome of the handler: a 200 body or a raised `HTTPException`. -/
inductive QueryEndpointResult where
  | ok (body : QuestionResponse)
  | httpError (statusCode : Nat) (detail : String)
deriving DecidableEq

/-- Embedding of the `ask_question` route handler: run the orchestrator,
then read `result["model_used"]` to build the response; if the key is
absent the `KeyError` is caught and becomes a 500. -/
def query_endpoint (rag_max_chunks : Nat)
    (search_documents : String → Nat → Except String SearchOutcome)
    (answer_with_context : String → List Hit → Except String LLMAnswer)
    (request : QuestionRequest) : QueryEndpointResult :=
  let result := ask_question request.question rag_max_chunks search_documents
    answer_with_context request.max_chunks
  match result.model_used with
  | some m =>
    .ok ⟨result.question, result.answer, result.sources, result.success,
      result.chunks_found, m, result.error⟩
  | none => .httpError 500 "Question processing failed: \x27model_used\x27"

/-- C1 (failing input): when the pipeline search returns a failure result,
`ask_question` does return `success = false`, `chunks_found = 0` and the
underlying error, but the HTTP endpoint does not return that failure as a
200 body: the handler's `result["model_used"]` lookup raises `KeyError`
(the key is absent from the failure dictionary) and the request ends in an
HTTP 500. -/
theorem query_endpoint_search_failure_500 :
    (ask_question "q" 5 (fun _ _ => .ok (.failure "db down"))
        (fun _ _ => .error "unused") none).success = false
    ∧ (ask_question "q" 5 (fun _ _ => .ok (.failure "db down"))
        (fun _ _ => .error "unused") none).chunks_found = 0
    ∧ (ask_question "q" 5 (fun _ _ => .ok (.failure "db down"))
        (fun _ _ => .error "unused") none).error = some "db down"
    ∧ query_endpoint 5 (fun _ _ => .ok (.failure "db down"))
        (fun _ _ => .error "unused") ⟨"q", none⟩
      = .httpError 500 "Question processing failed: \x27model_used\x27" :=
  ⟨rfl, rfl, rfl, rfl⟩

/-! ## Document pipeline (src/core/document_processor.py,
`DocumentProcessor.process_and_store_document`)

The collaborators (`save_document`, `extract_text_from_bytes`,
`VectorStore.add_document_chunks`) are parameters; an `Except.error` models
an exception raised by the collaborator, caught by the pipeline's
`try/except` and converted to the tagged failure dictionary. -/

/-- Collaborators of the document pipeline. -/
structure PipelineDeps where
  save_document : String → List Nat → Except String String
  extract_text : List Char → List Nat → Except String (List Char)
  add_document_chunks : List (List Char) → String → Except String Unit

/-- Tagged result dictionary of `process_and_store_document`. -/
inductive ProcessResult where
  | success (filename file_path : String) (text_length num_chunks : Nat)
      (message : String)
  | failure (filename error message : String)
deriving DecidableEq

/-- Index of the last `.` in a character list, if any (Python `rfind`). -/
def rfindDot : List Char → Option Nat
  | [] => none
  | c :: cs =>
    match rfindDot cs with
    | some i => some (i + 1)
    | none => if c = '.' then some 0 else none

/-- Embedding of `Path(filename).suffix`: the extension of the last path
component, from its last dot, empty when the dot is leading or trailing. -/
def pathSuffix (filename : List Char) : List Char :=
  let name := (pySplitOn '/' filename).getLastD []
  match rfindDot name with
  | some i => if 0 < i ∧ i < name.length - 1 then name.drop i else []
  | none => []

/-- Embedding of `process_and_store_document(filename, content)`:
save file, extract text by extension, clean, chunk with window 1000 and
overlap 200, index the chunks; any collaborator fault becomes the tagged
failure dictionary.  The fuel-exhaustion branch of the chunking loop is
unreachable for window 1000 / overlap 200 (`chunk_text_isSome`) and exists
only because the loop embedding is fuelled. -/
def process_and_store_document (deps : PipelineDeps) (filename : String)
    (content : List Nat) : ProcessResult :=
  match deps.save_document filename content with
  | .error e => .failure filename e ("Failed to process " ++ filename ++ ": " ++ e)
  | .ok file_path =>
    let file_extension := lowerChars (pathSuffix filename.toList)
    match deps.extract_text file_extension content with
    | .error e => .failure filename e ("Failed to process " ++ filename ++ ": " ++ e)
    | .ok raw_text =>
      let cleaned_text := clean_text raw_text
      match chunk_text cleaned_text 1000 200 with
      | none =>
        .failure filename "chunking loop ran out of fuel"
          ("Failed to process " ++ filename ++ ": chunking loop ran out of fuel")
      | some chunks =>
        match deps.add_document_chunks chunks filename with
        | .error e => .failure filename e ("Failed to process " ++ filename ++ ": " ++ e)
        | .ok _ =>
          .success filename file_path cleaned_text.length chunks.length
            ("Successfully processed " ++ filename)

/-- C8: the pipeline never raises past its boundary: for every filename,
byte content and collaborator behaviour it returns either the success
dictionary carrying the filename, storage path, cleaned-text length and
chunk count, or the failure dictionary carrying the triggering error. -/
theorem process_and_store_document_boundary (deps : PipelineDeps)
    (filename : String) (content : List Nat) :
    (∃ file_path raw chunks,
        deps.save_document filename content = .ok file_path ∧
        deps.extract_text (lowerChars (pathSuffix filename.toList)) content = .ok raw ∧
        chunk_text (clean_text raw) 1000 200 = some chunks ∧
        process_and_store_document deps filename content =
          .success filename file_path (clean_text raw).length chunks.length
            ("Successfully processed " ++ filename))
    ∨ (∃ e m, process_and_store_document deps filename content =
          .failure filename e m) := by
  cases hsave : deps.save_document filename content with
  | error e =>
    refine Or.inr ⟨e, "Failed to process " ++ filename ++ ": " ++ e, ?_⟩
    simp [process_and_store_document, hsave]
  | ok file_path =>
    cases hext : deps.extract_text (lowerChars (pathSuffix filename.data)) content with
    | error e =>
      refine Or.inr ⟨e, "Failed to process " ++ filename ++ ": " ++ e, ?_⟩
      simp [process_and_store_document, hsave, hext]
    | ok raw =>
      obtain ⟨chunks, hchunks⟩ := Option.isSome_iff_exists.mp
        (chunk_text_isSome (clean_text raw) 1000 200 (by omega))
      cases hadd : deps.add_document_chunks chunks filename with
      | error e =>
        refine Or.inr ⟨e, "Failed to process " ++ filename ++ ": " ++ e, ?_⟩
        simp [process_and_store_document, hsave, hext, hchunks, hadd]
      | ok u =>
        refine Or.inl ⟨file_path, raw, chunks, rfl, by exact hext, hchunks, ?_⟩
        simp [process_and_store_document, hsave, hext, hchunks, hadd]

end DocAssist
